import Mathlib

/-!
Verification of the storage-browser tool (`script/mount_tool.py`, final
revision, and `mount_tool.py`, earlier revision).

The Python program is shallowly embedded: every operation is a pure Lean
function from a configuration (the startup-fixed flags), an environment
(the oracles for user prompts, external-command results and filesystem
queries) and a `Partition` value to an outcome together with the list of
external command vectors the operation issues.  `subprocess` invocations
are recorded in program order; `run_priv` is modelled by `privVec` /
`privOk` (prefix `sudo` when the effective uid is not root, then consult
the environment for the exit status).  Display-only behaviour (colors,
banner, screen drawing) is out of scope and not modelled; color constants
are taken in their non-TTY configuration where they are all `""`, so
prompt strings appear without escape codes.
-/

namespace MountTool

/-! ## Python-semantics helpers -/

/-- Python `a or b` for an optional string `a`: `None` and `""` are falsy. -/
def pyOr (a : Option String) (b : String) : String :=
  match a with
  | some s => if s == "" then b else s
  | none => b

/-- Python truthiness of an optional string. -/
def pyTruthy (a : Option String) : Bool :=
  match a with
  | some s => s != ""
  | none => false

/-- The string carried by an optional string (used only under `pyTruthy`). -/
def optStr (a : Option String) : String := a.getD ""

/-- Python `str.isdigit()` restricted to ASCII: nonempty and all digits. -/
def pyIsDigit (s : String) : Bool :=
  s != "" && s.toList.all Char.isDigit

/-- Worker for `pySplitWs`: split on whitespace, dropping empty pieces,
like Python `str.split()` with no argument. -/
def wsSplitGo : List Char → List Char → List String
  | [], acc => if acc.isEmpty then [] else [String.mk acc.reverse]
  | c :: t, acc =>
    if c.isWhitespace then
      if acc.isEmpty then wsSplitGo t [] else String.mk acc.reverse :: wsSplitGo t []
    else wsSplitGo t (c :: acc)

/-- Python `s.strip().split()`. -/
def pySplitWs (s : String) : List String := wsSplitGo s.toList []

/-- Worker for `pySplitLines`. -/
def linesGo : List Char → List Char → List String
  | [], acc => [String.mk acc.reverse]
  | c :: t, acc =>
    if c == '\n' then String.mk acc.reverse :: linesGo t [] else linesGo t (c :: acc)

/-- Python `s.splitlines()` (modulo a possible final `""` piece, which can
never contain a nonempty device path and so never affects membership
tests). -/
def pySplitLines (s : String) : List String := linesGo s.toList []

/-- Membership of `pat` in `s` as Python `pat in s`, on character lists. -/
def subList (pat : List Char) : List Char → Bool
  | [] => pat.isEmpty
  | c :: t => pat.isPrefixOf (c :: t) || subList pat t

/-- Python `pat in s` for strings. -/
def hasSubstr (s pat : String) : Bool := subList pat.toList s.toList

/-! ## `parent_disk` (final revision, lines 183-189)

`re.match(r"^(nvme\d+n\d+p)\d+$", ...)`, `re.match(r"^mmcblk\d+p\d+$", ...)`,
`re.sub(r"p\d+$", "", ...)` and `re.sub(r"\d+$", "", ...)` are translated
into explicit character-list scanners.  Since `\d` cannot match the literal
letters `n`/`p`, greedy matching is deterministic and the scanners below
are exact translations of the anchored regular expressions. -/

/-- Consume a nonempty run of digits, returning it and the rest. -/
def digitsThen (s : List Char) : Option (List Char × List Char) :=
  let d := s.takeWhile Char.isDigit
  if d.isEmpty then none else some (d, s.dropWhile Char.isDigit)

/-- Recogniser for `re.match(r"^(nvme\d+n\d+p)\d+$", name)`. -/
def matchNvmePat (s : List Char) : Bool :=
  match s with
  | 'n' :: 'v' :: 'm' :: 'e' :: r1 =>
    match digitsThen r1 with
    | some (_, 'n' :: r2) =>
      match digitsThen r2 with
      | some (_, 'p' :: r3) =>
        match digitsThen r3 with
        | some (_, r4) => r4.isEmpty
        | none => false
      | _ => false
    | _ => false
  | _ => false

/-- Recogniser for `re.match(r"^mmcblk\d+p\d+$", name)`. -/
def matchMmcPat (s : List Char) : Bool :=
  match s with
  | 'm' :: 'm' :: 'c' :: 'b' :: 'l' :: 'k' :: r1 =>
    match digitsThen r1 with
    | some (_, 'p' :: r2) =>
      match digitsThen r2 with
      | some (_, r3) => r3.isEmpty
      | none => false
    | _ => false
  | _ => false

/-- Embedding of `re.sub(r"p\d+$", "", s)`: drop a trailing `p`-plus-digits suffix
(the digit run must be nonempty, as `\d+` requires). -/
def stripPSuffix (s : List Char) : List Char :=
  match s.reverse.dropWhile Char.isDigit with
  | 'p' :: rest =>
    if (s.reverse.takeWhile Char.isDigit).isEmpty then s else rest.reverse
  | _ => s

/-- Embedding of `re.sub(r"\d+$", "", s)`: drop trailing digits. -/
def stripTrailingDigits (s : List Char) : List Char :=
  (s.reverse.dropWhile Char.isDigit).reverse

/-- Embedding of `parent_disk` (final revision): `nvme0n1p3 -> nvme0n1`;
`mmcblk0p1 -> mmcblk0`; `sda3 -> sda`. -/
def parent_disk (name : String) : String :=
  let s := name.toList
  if matchNvmePat s then (stripPSuffix s).asString
  else if matchMmcPat s then (stripPSuffix s).asString
  else (stripTrailingDigits s).asString

/-! ## Data model (final revision, `@dataclass Partition`, lines 194-215)

`mountpoints` entries are `Option String` because the `lsblk` JSON output
carries `null` entries for unmounted filesystems; Python stores them
verbatim and the `mount` property filters out both `None` and `""`. -/

structure Partition where
  name : String
  size : String
  fstype : String
  mountpoints : List (Option String)
  label : Option String
  uuid : Option String
  type : Option String
  is_swap : Bool
  is_luks : Bool
  luks_mapper : Option String
  luks_unlocked : Bool
deriving DecidableEq, Repr

/-- Property `dev`: `f"/dev/{self.name}"`. -/
def Partition.dev (p : Partition) : String := "/dev/" ++ p.name

/-- Property `mount`: first truthy mountpoint, else `"-"`. -/
def Partition.mount (p : Partition) : String :=
  match (p.mountpoints.filterMap id).filter (fun m => m != "") with
  | [] => "-"
  | m :: _ => m

/-- Python `p.mount and p.mount != "-"` (the "is mounted" test used by
every action). -/
def pyMounted (p : Partition) : Bool :=
  !(p.mount == "") && !(p.mount == "-")

/-! ## Configuration and environment

The configuration gathers the process-start values: `SAFE_MODE`, `NO_GUI`,
`DEFAULT_MOUNT_BASE` and `VMKEYS_DIR`.  The environment is the oracle for
everything the program observes from the outside world: exit status and
stdout of each command vector, answers to `confirm` and `safe_input`
prompts (keyed by the prompt text; `none` models an interrupt), tool
availability (`shutil.which`), keyfile existence (`Path.is_file`), the
effective uid, and the parsed `lsblk` snapshot (`none` models a query or
JSON-parse failure). -/

structure Config where
  safe_mode : Bool
  no_gui : Bool
  mount_base : String
  vmkeys_dir : String
deriving DecidableEq, Repr

inductive LsblkNode where
  | mk (name size typ fstype : String) (label uuid : Option String)
      (mountpoints : List (Option String)) (children : List LsblkNode)

structure Env where
  euid_is_root : Bool
  cmd_succeeds : List String → Bool
  cmd_stdout : List String → String
  confirm : String → Bool
  input : String → Option String
  which : String → Bool
  is_file : String → Bool
  lsblk_tree : Option (List LsblkNode)

/-- The vector actually executed by `run_priv`: prefix `sudo` unless the
process is already root (lines 89-99). -/
def privVec (env : Env) (cmd : List String) : List String :=
  if env.euid_is_root then cmd else "sudo" :: cmd

/-- Exit status of a `run_priv` invocation. -/
def privOk (env : Env) (cmd : List String) : Bool :=
  env.cmd_succeeds (privVec env cmd)

/-- Outcome of an action, abstracting the message it prints.  `blocked` is
the `[SAFE MODE] ... blocked` report of the safety decorator. -/
inductive Outcome where
  | blocked
  | alreadyMounted
  | notMounted
  | cancelled
  | success
  | failure
  | lazyAttempted
  | notSwap
  | notLockedLuks
  | notLuks
  | keyfileNotFound
deriving DecidableEq, Repr

/-- An action result: the reported outcome and the external command
vectors issued, in program order. -/
abbrev ActRes := Outcome × List (List String)

/-- The `block_if_safe` decorator (lines 337-345): with safe mode engaged
the wrapped body is never entered, nothing is executed, and the blocked
report is returned. -/
def block_if_safe (safe : Bool) (body : Unit → ActRes) : ActRes :=
  if safe then (.blocked, []) else body ()

/-! ## Device inventory builder (`fetch_devices`, lines 220-275) -/

/-- The `lsblk` query vector issued by `fetch_devices`. -/
def lsblkCmd : List String :=
  ["lsblk", "-J", "-o", "NAME,SIZE,TYPE,FSTYPE,LABEL,UUID,MOUNTPOINTS"]

/-- The node filter of `walk`:
`typ in ("part", "crypt", "lvm") or (typ and typ != "disk")`. -/
def includeType (typ : String) : Bool :=
  typ == "part" || typ == "crypt" || typ == "lvm" || (typ != "" && typ != "disk")

/-- The `Partition` built for one emitted node (lines 242-258). -/
def classifyNode (name size typ fs : String) (label uuid : Option String)
    (mps : List (Option String)) : Partition :=
  if typ == "crypt" then
    { name := name, size := size, fstype := fs, mountpoints := mps,
      label := label, uuid := uuid, type := some typ, is_swap := fs == "swap",
      is_luks := true, luks_mapper := some name, luks_unlocked := true }
  else if fs == "crypto_LUKS" then
    { name := name, size := size, fstype := fs, mountpoints := mps,
      label := label, uuid := uuid, type := some typ, is_swap := fs == "swap",
      is_luks := true, luks_mapper := none, luks_unlocked := false }
  else
    { name := name, size := size, fstype := fs, mountpoints := mps,
      label := label, uuid := uuid, type := some typ, is_swap := fs == "swap",
      is_luks := false, luks_mapper := none, luks_unlocked := false }

mutual

/-- Depth-first `walk` over one `lsblk` node (lines 233-261). -/
def walkNode : LsblkNode → List Partition
  | .mk name size typ fs label uuid mps children =>
    (if includeType typ then [classifyNode name size typ fs label uuid mps] else [])
      ++ walkNodes children

/-- The `walk` recursion over a list of sibling nodes. -/
def walkNodes : List LsblkNode → List Partition
  | [] => []
  | n :: rest => walkNode n ++ walkNodes rest

end

/-- The candidate scan of the linking pass (lines 267-274): first unlocked
`crypt` node whose name extends the partition's name or contains its UUID.
The Python loop mutates entries in place while scanning, but an updated
entry never has `type == "crypt"` and names are never changed, so the
scan over the original list is equivalent. -/
def linkCandidate (parts : List Partition) (p : Partition) : Option Partition :=
  parts.find? (fun cand =>
    cand.type == some "crypt" && cand.luks_unlocked &&
      (cand.name.startsWith p.name ||
        (pyTruthy p.uuid && hasSubstr cand.name (optStr p.uuid))))

/-- The update applied to one partition by the linking pass. -/
def link_one (parts : List Partition) (p : Partition) : Partition :=
  if p.is_luks && !p.luks_unlocked then
    match linkCandidate parts p with
    | some cand => { p with luks_unlocked := true, luks_mapper := some cand.name }
    | none => p
  else p

/-- The heuristic pass linking locked LUKS partitions to unlocked mappers. -/
def link_pass (parts : List Partition) : List Partition :=
  parts.map (link_one parts)

/-- Inventory built from a parsed `lsblk` tree: walk, then linking pass. -/
def fetchFromTree (raw : List LsblkNode) : List Partition :=
  link_pass (walkNodes raw)

/-- Embedding of `fetch_devices`: issues the `lsblk` query; any query or parse failure
yields the empty inventory (lines 220-230). -/
def fetch_devices (env : Env) : List Partition × List (List String) :=
  (match env.lsblk_tree with
   | some raw => fetchFromTree raw
   | none => [], [lsblkCmd])

/-- The documented invariant of `crypt`-type nodes: unlocked LUKS mapper
whose `luks_mapper` is its own name. -/
def cryptInvariant (p : Partition) : Prop :=
  p.is_luks = true ∧ p.luks_unlocked = true ∧ p.luks_mapper = some p.name

/-! ## Busy-resource resolver (`kill_processes_using`, lines 461-483)

`lsof` is executed unprivileged (`run_cmd`); a failing probe is caught and
treated as "no holders".  The `kill` signals go through `run_priv` with
`check=False`, so no exception is raised and `ok_all` stays true.  The
fixed 0.5s settle delay is real time, not modelled. -/

def mapped_dev (p : Partition) : String :=
  match p.luks_mapper with
  | some m =>
    if p.is_luks && p.luks_unlocked && m != "" then "/dev/mapper/" ++ m else p.dev
  | none => p.dev

/-- The pid list produced by the `lsof -t` probe inside
`kill_processes_using`: stdout tokens that are all digits; a failing probe
is caught and yields no pids. -/
def holderPids (env : Env) (dev_path : String) : List String :=
  if env.cmd_succeeds ["lsof", "-t", dev_path]
  then (pySplitWs (env.cmd_stdout ["lsof", "-t", dev_path])).filter pyIsDigit
  else []

def kill_processes_using (env : Env) (p : Partition) : Bool × List (List String) :=
  let dev_path := mapped_dev p
  if !env.which "lsof" then (true, [])
  else
    let probe := ["lsof", "-t", dev_path]
    let pids := holderPids env dev_path
    if pids.isEmpty then (true, [probe])
    else if !env.confirm "Kill these processes?" then (false, [probe])
    else (true, probe :: pids.map (fun pid => privVec env ["kill", "-TERM", pid]))

/-! ## Mutating actions (lines 450-656)

Each `do_*` function below is the body of the correspondingly named Python
function, wrapped in `block_if_safe` exactly as the `@block_if_safe`
decorator wraps it.  `Path(ans).mkdir(...)` in `choose_mount_point` is a
direct filesystem call, not a subprocess invocation, and is not recorded
in the command trace. -/

/-- Embedding of `re.sub(r"[^A-Za-z0-9._-]", "_", name)`. -/
def sanitizeName (s : String) : String :=
  String.mk (s.toList.map (fun c =>
    if c.isAlphanum || c == '.' || c == '_' || c == '-' then c else '_'))

/-- Embedding of `choose_mount_point` (lines 450-459). -/
def choose_mount_point (cfg : Config) (env : Env) (p : Partition) : String :=
  let dflt := cfg.mount_base ++ "/" ++ sanitizeName (pyOr p.label p.name)
  match env.input ("Mount point [" ++ dflt ++ "]: ") with
  | none => dflt
  | some ans => if ans.trim == "" then dflt else ans

/-- Embedding of `do_mount` (lines 485-498).  Note: no LUKS auto-unlock is attempted;
for a locked LUKS partition the raw device path itself is mounted. -/
def do_mount (cfg : Config) (env : Env) (p : Partition) : ActRes :=
  block_if_safe cfg.safe_mode fun _ =>
  if pyMounted p then (.alreadyMounted, [])
  else
    let mp := choose_mount_point cfg env p
    let dev := mapped_dev p
    if privOk env ["mount", dev, mp] then (.success, [privVec env ["mount", dev, mp]])
    else (.failure, [privVec env ["mount", dev, mp]])

/-- Embedding of `do_unmount` (lines 500-524).  After a busy failure the holder
resolver runs; if it reports freed, the plain unmount is retried; in
either remaining case a lazy unmount is attempted as last resort. -/
def do_unmount (cfg : Config) (env : Env) (p : Partition) : ActRes :=
  block_if_safe cfg.safe_mode fun _ =>
  if !pyMounted p then (.notMounted, [])
  else if !env.confirm ("Unmount " ++ p.dev ++ " from " ++ p.mount ++ "?") then
    (.cancelled, [])
  else
    let dev := mapped_dev p
    if privOk env ["umount", dev] then (.success, [privVec env ["umount", dev]])
    else
      let kr := kill_processes_using env p
      if kr.1 then
        if privOk env ["umount", dev] then
          (.success, privVec env ["umount", dev] :: kr.2 ++ [privVec env ["umount", dev]])
        else
          (.lazyAttempted, privVec env ["umount", dev] :: kr.2 ++
            [privVec env ["umount", dev], privVec env ["umount", "-l", dev]])
      else
        (.lazyAttempted, privVec env ["umount", dev] :: kr.2 ++
          [privVec env ["umount", "-l", dev]])

/-- Embedding of `do_remount` (lines 526-535): unconditional `umount` with
`check=False`, then `mount` at the current (or freshly chosen) path. -/
def do_remount (cfg : Config) (env : Env) (p : Partition) : ActRes :=
  block_if_safe cfg.safe_mode fun _ =>
  let dev := mapped_dev p
  let mount_at := if pyMounted p then p.mount else choose_mount_point cfg env p
  if privOk env ["mount", dev, mount_at] then
    (.success, [privVec env ["umount", dev], privVec env ["mount", dev, mount_at]])
  else
    (.failure, [privVec env ["umount", dev], privVec env ["mount", dev, mount_at]])

/-- The trailing `fsck -y` run shared by both `do_fsck` paths. -/
def fsck_run (env : Env) (dev : String) (pre : List (List String)) : ActRes :=
  if privOk env ["fsck", "-y", dev] then (.success, pre ++ [privVec env ["fsck", "-y", dev]])
  else (.failure, pre ++ [privVec env ["fsck", "-y", dev]])

/-- Embedding of `do_fsck` (lines 537-555): a mounted target needs a confirmed unmount
first (with the busy-resolution fallback); the check then runs; no
remount is issued afterwards. -/
def do_fsck (cfg : Config) (env : Env) (p : Partition) : ActRes :=
  block_if_safe cfg.safe_mode fun _ =>
  let dev := mapped_dev p
  if pyMounted p then
    if !env.confirm (dev ++ " is mounted at " ++ p.mount ++ ". Unmount to run fsck?") then
      (.cancelled, [])
    else if privOk env ["umount", dev] then
      fsck_run env dev [privVec env ["umount", dev]]
    else
      let kr := kill_processes_using env p
      if !kr.1 then (.failure, privVec env ["umount", dev] :: kr.2)
      else
        fsck_run env dev
          (privVec env ["umount", dev] :: kr.2 ++ [privVec env ["umount", dev]])
  else fsck_run env dev []

/-- Embedding of `do_eject` (lines 557-571): confirm, optionally unmount first (via
`do_unmount`, whose own result is ignored), then power off the whole
parent device. -/
def do_eject (cfg : Config) (env : Env) (p : Partition) : ActRes :=
  block_if_safe cfg.safe_mode fun _ =>
  let whole := "/dev/" ++ parent_disk p.name
  if !env.confirm ("Power off (eject) whole device " ++ whole ++ "?") then
    (.cancelled, [])
  else if pyMounted p &&
      !env.confirm (p.dev ++ " is mounted at " ++ p.mount ++ ". Unmount first?") then
    (.cancelled, [])
  else
    let pre := if pyMounted p then (do_unmount cfg env p).2 else []
    if privOk env ["udisksctl", "power-off", "-b", whole] then
      (.success, pre ++ [privVec env ["udisksctl", "power-off", "-b", whole]])
    else
      (.failure, pre ++ [privVec env ["udisksctl", "power-off", "-b", whole]])

/-- The live activity test of `do_swap_toggle`: run `swapon --show=NAME`
unprivileged (a failure is caught and treated as empty output) and test
each line for containing the device path. -/
def swap_active (env : Env) (dev : String) : Bool :=
  let out := if env.cmd_succeeds ["swapon", "--show=NAME"]
             then env.cmd_stdout ["swapon", "--show=NAME"] else ""
  (pySplitLines out).any (fun line => hasSubstr line dev)

/-- Embedding of `do_swap_toggle` (lines 573-599): on/off decided solely by the fresh
`swapon --show=NAME` listing, then the opposite command is issued. -/
def do_swap_toggle (cfg : Config) (env : Env) (p : Partition) : ActRes :=
  block_if_safe cfg.safe_mode fun _ =>
  if !p.is_swap then (.notSwap, [])
  else
    let dev := p.dev
    let show_cmd := ["swapon", "--show=NAME"]
    if swap_active env dev then
      if !env.confirm ("Disable swap on " ++ dev ++ "?") then (.cancelled, [show_cmd])
      else if privOk env ["swapoff", dev] then
        (.success, [show_cmd, privVec env ["swapoff", dev]])
      else (.failure, [show_cmd, privVec env ["swapoff", dev]])
    else
      if !env.confirm ("Enable swap on " ++ dev ++ "?") then (.cancelled, [show_cmd])
      else if privOk env ["swapon", dev] then
        (.success, [show_cmd, privVec env ["swapon", dev]])
      else (.failure, [show_cmd, privVec env ["swapon", dev]])

/-- Embedding of `luks_unlock_passphrase` (lines 601-611): secret entry is delegated to
`cryptsetup` itself, invoked through `run_priv`. -/
def luks_unlock_passphrase (cfg : Config) (env : Env) (p : Partition) : ActRes :=
  block_if_safe cfg.safe_mode fun _ =>
  if !p.is_luks || p.luks_unlocked then (.notLockedLuks, [])
  else
    let mapper := pyOr (env.input ("Mapper name [" ++ p.name ++ "]: ")) p.name
    let cmd := ["cryptsetup", "open", "--type", "luks", p.dev, mapper]
    if privOk env cmd then (.success, [privVec env cmd])
    else (.failure, [privVec env cmd])

/-- Candidate keyfile path under the trusted key directory. -/
def keyPath (cfg : Config) (n : String) : String :=
  cfg.vmkeys_dir ++ "/" ++ n ++ ".key"

/-- The ordered candidate keyfiles of `luks_unlock_keyfile`: UUID-named,
then label-named, then device-name-named (lines 618-621). -/
def keyfileCandidates (cfg : Config) (p : Partition) : List String :=
  (if pyTruthy p.uuid then [keyPath cfg (optStr p.uuid)] else []) ++
  (if pyTruthy p.label then [keyPath cfg (optStr p.label)] else []) ++
  [keyPath cfg p.name]

/-- The `cryptsetup open --key-file` invocation once a keyfile is chosen
(lines 635-640). -/
def cryptOpenKey (env : Env) (p : Partition) (k : String) : ActRes :=
  let mapper := pyOr (env.input ("Mapper name [" ++ p.name ++ "]: ")) p.name
  let cmd := ["cryptsetup", "open", "--type", "luks", "--key-file", k, p.dev, mapper]
  if privOk env cmd then (.success, [privVec env cmd])
  else (.failure, [privVec env cmd])

/-- Embedding of `luks_unlock_keyfile` (lines 613-640): first existing candidate wins;
with no candidate, a manual path is prompted for, an empty or interrupted
answer cancels, and a non-existent manual path is rejected. -/
def luks_unlock_keyfile (cfg : Config) (env : Env) (p : Partition) : ActRes :=
  block_if_safe cfg.safe_mode fun _ =>
  if !p.is_luks || p.luks_unlocked then (.notLockedLuks, [])
  else
    match (keyfileCandidates cfg p).find? env.is_file with
    | some k => cryptOpenKey env p k
    | none =>
      match env.input "Keyfile path (or Enter to cancel): " with
      | none => (.cancelled, [])
      | some s =>
        if s == "" then (.cancelled, [])
        else if !env.is_file s then (.keyfileNotFound, [])
        else cryptOpenKey env p s

/-- Embedding of `luks_lock` (lines 642-656): if mounted, requires a confirmed unmount
first (delegating to `do_unmount`); closes the mapper by mapper name. -/
def luks_lock (cfg : Config) (env : Env) (p : Partition) : ActRes :=
  block_if_safe cfg.safe_mode fun _ =>
  if !p.is_luks then (.notLuks, [])
  else
    let mapper := pyOr p.luks_mapper p.name
    if pyMounted p &&
        !env.confirm (p.dev ++ " is mounted at " ++ p.mount ++ ". Unmount first?") then
      (.cancelled, [])
    else
      let pre := if pyMounted p then (do_unmount cfg env p).2 else []
      let cmd := ["cryptsetup", "close", mapper]
      if privOk env cmd then (.success, pre ++ [privVec env cmd])
      else (.failure, pre ++ [privVec env cmd])

/-! ## Details view and main loop (lines 661-740) -/

/-- One keypress of the `show_details` loop.  The returned partition is
the one the next iteration operates on: `none` models leaving the view.
The `x`/`t` keys launch desktop helpers, which are out of scope and issue
no commands through `run_cmd`/`run_priv`. -/
def show_details_step (cfg : Config) (env : Env) (key : String) (p : Partition) :
    Option Partition × List (List String) :=
  if key == "enter" || key == "esc" || key == "q" then (none, [])
  else if key == "m" then (some p, (do_mount cfg env p).2)
  else if key == "u" then (some p, (do_unmount cfg env p).2)
  else if key == "E" then (some p, (do_eject cfg env p).2)
  else if key == "r" then (some p, (do_remount cfg env p).2)
  else if key == "f" then (some p, (do_fsck cfg env p).2)
  else if key == "k" then (some p, (kill_processes_using env p).2)
  else if key == "o" then (some p, (luks_unlock_passphrase cfg env p).2)
  else if key == "O" then (some p, (luks_unlock_keyfile cfg env p).2)
  else if key == "l" then (some p, (luks_lock cfg env p).2)
  else if key == "s" then (some p, (do_swap_toggle cfg env p).2)
  else (some p, [])

structure MainState where
  devs : List Partition
  selected : Nat
deriving DecidableEq, Repr

inductive MainNext where
  | quit
  | cont (st : MainState)
deriving DecidableEq, Repr

/-- Python `(i + d) % n` on possibly negative `i + d`. -/
def pyMod (i : Int) (n : Nat) : Nat := (i % (n : Int)).toNat

/-- One keypress of the top-level selection loop (lines 717-740).  On
`enter` the inventory is refetched before the details view opens; the
details sub-loop itself is modelled by `show_details_step`. -/
def main_step (cfg : Config) (env : Env) (key : String) (st : MainState) :
    MainNext × List (List String) :=
  if key == "q" || key == "esc" then (.quit, [])
  else if key == "r" then
    let fd := fetch_devices env
    (.cont ⟨fd.1, if st.selected ≥ fd.1.length then 0 else st.selected⟩, fd.2)
  else if key == "up" then
    (.cont ⟨st.devs, pyMod ((st.selected : Int) - 1) st.devs.length⟩, [])
  else if key == "down" then
    (.cont ⟨st.devs, pyMod ((st.selected : Int) + 1) st.devs.length⟩, [])
  else if key == "enter" then
    let fd := fetch_devices env
    (.cont ⟨fd.1, if st.selected ≥ fd.1.length then 0 else st.selected⟩, fd.2)
  else (.cont st, [])

/-! ## Earlier revision (`mount_tool.py`): the mounted-fsck branch

The earlier tool runs as root (`require_root`) and calls `subprocess.run`
directly, so its command vectors carry no `sudo` prefix. -/

structure OldDevice where
  name : String
  size : String
  type : String
  fstype : String
  mountpoint : String
  label : String
  uuid : String
  is_luks : Bool
  mapper_name : String
  unlocked : Bool
  is_swap : Bool
deriving DecidableEq, Repr

/-- Device-path selection of the earlier revision's handlers. -/
def old_dev_path (d : OldDevice) : String :=
  if d.is_luks && d.unlocked then "/dev/mapper/" ++ d.mapper_name
  else "/dev/" ++ d.name

/-- The `action == 'f'` branch of `handle_normal_device` for a mounted
device (earlier revision, lines 270-285): unmount, `fsck -y`, then mount
back at the previous mountpoint. -/
def old_fsck_mounted (env : Env) (d : OldDevice) : Bool × List (List String) :=
  let dev := old_dev_path d
  if env.cmd_succeeds ["umount", dev] then
    if env.cmd_succeeds ["fsck", "-y", dev] then
      if env.cmd_succeeds ["mount", dev, d.mountpoint] then
        (true, [["umount", dev], ["fsck", "-y", dev], ["mount", dev, d.mountpoint]])
      else
        (false, [["umount", dev], ["fsck", "-y", dev], ["mount", dev, d.mountpoint]])
    else (false, [["umount", dev], ["fsck", "-y", dev]])
  else (false, [["umount", dev]])

/-! ## Call-trace classification

`baseCmd` strips the `sudo` elevation prefix that `run_priv` may add, and
`headIn` classifies a recorded vector by the program it actually invokes.
These are used to state that an operation never issues a given kind of
command (e.g. no inventory re-query, no `mount`). -/

/-- The command underneath a possible `sudo` elevation prefix. -/
def baseCmd (c : List String) : List String :=
  match c with
  | "sudo" :: rest => rest
  | _ => c

/-- The invoked program of `c` is one of `allowed`. -/
def headIn (allowed : List String) (c : List String) : Prop :=
  ∃ a ∈ allowed, (baseCmd c).head? = some a

/-! ## Concrete fixtures used by witnesses and counterexamples -/

def cfgSafe : Config :=
  { safe_mode := true, no_gui := false, mount_base := "/mnt", vmkeys_dir := "/etc/vmkeys" }

def cfgLive : Config :=
  { cfgSafe with safe_mode := false }

def pPlain : Partition :=
  { name := "sda1", size := "100G", fstype := "ext4", mountpoints := [none],
    label := none, uuid := some "1111-2222", type := some "part",
    is_swap := false, is_luks := false, luks_mapper := none, luks_unlocked := false }

def pMounted : Partition :=
  { name := "sdc1", size := "20G", fstype := "ext4", mountpoints := [some "/mnt/data"],
    label := none, uuid := some "3333-4444", type := some "part",
    is_swap := false, is_luks := false, luks_mapper := none, luks_unlocked := false }

def pLocked : Partition :=
  { name := "sdb2", size := "50G", fstype := "crypto_LUKS", mountpoints := [none],
    label := some "vault", uuid := some "abcd-ef01", type := some "part",
    is_swap := false, is_luks := true, luks_mapper := none, luks_unlocked := false }

def pSwap : Partition :=
  { name := "sda2", size := "8G", fstype := "swap", mountpoints := [none],
    label := none, uuid := some "5555-6666", type := some "part",
    is_swap := true, is_luks := false, luks_mapper := none, luks_unlocked := false }

def envBase : Env :=
  { euid_is_root := true
  , cmd_succeeds := fun _ => true
  , cmd_stdout := fun _ => ""
  , confirm := fun _ => true
  , input := fun _ => none
  , which := fun _ => false
  , is_file := fun _ => false
  , lsblk_tree := none }

/-- Busy-unmount scenario: the plain unmount of `/dev/sdc1` fails, `lsof`
is available and reports holder pid 4242, and every confirmation except
the kill prompt is answered yes. -/
def envBusyDecline : Env :=
  { envBase with
    cmd_succeeds := fun c => !(c == ["umount", "/dev/sdc1"])
  , cmd_stdout := fun c => if c == ["lsof", "-t", "/dev/sdc1"] then "4242" else ""
  , which := fun s => s == "lsof"
  , confirm := fun s => !(s == "Kill these processes?") }

/-- Holder-kill scenario for the details view: non-root process, `lsof`
available and reporting pid 777, kill confirmed. -/
def envHolders : Env :=
  { envBase with
    euid_is_root := false
  , cmd_stdout := fun c => if c == ["lsof", "-t", "/dev/sdc1"] then "777" else ""
  , which := fun s => s == "lsof" }

/-- Keyfile scenario: both the UUID-named and the label-named candidate
keyfiles for `pLocked` exist in the trusted directory. -/
def envTwoKeys : Env :=
  { envBase with
    is_file := fun s =>
      s == "/etc/vmkeys/abcd-ef01.key" || s == "/etc/vmkeys/vault.key" }

/-- Keyfile scenario: only the label-named candidate keyfile exists. -/
def envLabelKey : Env :=
  { envBase with is_file := fun s => s == "/etc/vmkeys/vault.key" }

/-- Keyfile scenario: only the device-name-named candidate exists. -/
def envNameKey : Env :=
  { envBase with is_file := fun s => s == "/etc/vmkeys/sdb2.key" }

/-- An environment declining every confirmation prompt. -/
def envNoConfirm : Env :=
  { envBase with confirm := fun _ => false }

/-- Keyfile scenario: no candidate exists, and the manual prompt is
answered with a path that does not exist. -/
def envNoKeys : Env :=
  { envBase with
    input := fun s =>
      if s == "Keyfile path (or Enter to cancel): " then some "/nope.key" else none }

/-- Swap scenario: the live `swapon --show=NAME` listing contains
`/dev/sda2`. -/
def envSwapActive : Env :=
  { envBase with
    cmd_stdout := fun c =>
      if c == ["swapon", "--show=NAME"] then "NAME\n/dev/sda2" else "" }

/-- A parsed `lsblk` snapshot holding a disk with a locked LUKS partition
and a separately listed unlocked mapper node of type `crypt`. -/
def rawTree : List LsblkNode :=
  [ .mk "sda" "100G" "disk" "" none none [none]
      [ .mk "sda1" "100G" "part" "crypto_LUKS" none (some "u-1") [none] [] ]
  , .mk "cr" "100G" "crypt" "ext4" none none [some "/mnt/cr"] [] ]

/-- The `crypt`-type partition emitted for the `cr` node of `rawTree`. -/
def pCrypt : Partition :=
  { name := "cr", size := "100G", fstype := "ext4", mountpoints := [some "/mnt/cr"],
    label := none, uuid := none, type := some "crypt",
    is_swap := false, is_luks := true, luks_mapper := some "cr", luks_unlocked := true }

/-- The earlier revision's view of the mounted `/dev/sdc1` device. -/
def dOld : OldDevice :=
  { name := "sdc1", size := "20G", type := "part", fstype := "ext4",
    mountpoint := "/mnt/data", label := "", uuid := "3333-4444",
    is_luks := false, mapper_name := "", unlocked := false, is_swap := false }

/-! # Theorems -/

/-- C1: with the Safety Gate engaged (safe mode fixed at process start),
each of the mutating operations mount, unmount, remount, fsck, eject,
swap-toggle, LUKS lock and LUKS unlock (passphrase or keyfile) issues no
external command and reports the blocked outcome, while the read-only
main loop (inventory refresh, navigation) behaves identically with the
gate on or off. -/
theorem safety_gate_blocks_mutations (cfg : Config) (env : Env) (p : Partition)
    (key : String) (st : MainState) (h : cfg.safe_mode = true) :
    do_mount cfg env p = (.blocked, []) ∧
    do_unmount cfg env p = (.blocked, []) ∧
    do_remount cfg env p = (.blocked, []) ∧
    do_fsck cfg env p = (.blocked, []) ∧
    do_eject cfg env p = (.blocked, []) ∧
    do_swap_toggle cfg env p = (.blocked, []) ∧
    luks_lock cfg env p = (.blocked, []) ∧
    luks_unlock_passphrase cfg env p = (.blocked, []) ∧
    luks_unlock_keyfile cfg env p = (.blocked, []) ∧
    main_step { cfg with safe_mode := true } env key st
      = main_step { cfg with safe_mode := false } env key st := by
  refine ⟨?_, ?_, ?_, ?_, ?_, ?_, ?_, ?_, ?_, rfl⟩ <;>
    simp [do_mount, do_unmount, do_remount, do_fsck, do_eject, do_swap_toggle,
      luks_lock, luks_unlock_passphrase, luks_unlock_keyfile, block_if_safe, h]

/-- Witness for C1 at a concrete safe-mode configuration. -/
theorem safety_gate_blocks_mutations_witness :
    do_mount cfgSafe envBase pPlain = (.blocked, []) ∧
    do_unmount cfgSafe envBase pPlain = (.blocked, []) ∧
    do_remount cfgSafe envBase pPlain = (.blocked, []) ∧
    do_fsck cfgSafe envBase pPlain = (.blocked, []) ∧
    do_eject cfgSafe envBase pPlain = (.blocked, []) ∧
    do_swap_toggle cfgSafe envBase pPlain = (.blocked, []) ∧
    luks_lock cfgSafe envBase pPlain = (.blocked, []) ∧
    luks_unlock_passphrase cfgSafe envBase pPlain = (.blocked, []) ∧
    luks_unlock_keyfile cfgSafe envBase pPlain = (.blocked, []) ∧
    main_step { cfgSafe with safe_mode := true } envBase "r" ⟨[], 0⟩
      = main_step { cfgSafe with safe_mode := false } envBase "r" ⟨[], 0⟩ :=
  safety_gate_blocks_mutations cfgSafe envBase pPlain "r" ⟨[], 0⟩ rfl

/-! ## Helper lemmas about call traces -/

theorem baseCmd_privVec (env : Env) (a : String) (rest : List String) (h : a ≠ "sudo") :
    baseCmd (privVec env (a :: rest)) = a :: rest := by
  unfold privVec
  split
  · unfold baseCmd
    split
    · rename_i heq
      rw [List.cons.injEq] at heq
      exact absurd heq.1 h
    · rfl
  · unfold baseCmd
    split
    · rename_i heq
      rw [List.cons.injEq] at heq
      exact heq.2.symm
    · rename_i hno
      exact ((hno (a :: rest)) rfl).elim

theorem headIn_privVec (env : Env) (allowed : List String) (a : String)
    (rest : List String) (hs : a ≠ "sudo") (ha : a ∈ allowed) :
    headIn allowed (privVec env (a :: rest)) :=
  ⟨a, ha, by rw [baseCmd_privVec env a rest hs]; rfl⟩

theorem headIn_raw (allowed : List String) (a : String) (rest : List String)
    (hs : a ≠ "sudo") (ha : a ∈ allowed) : headIn allowed (a :: rest) := by
  refine ⟨a, ha, ?_⟩
  unfold baseCmd
  split
  · rename_i heq
    rw [List.cons.injEq] at heq
    exact absurd heq.1 hs
  · rfl

theorem headIn_mono {al al' : List String} {c : List String}
    (h : headIn al c) (hs : ∀ a ∈ al, a ∈ al') : headIn al' c := by
  rcases h with ⟨a, ha, he⟩
  exact ⟨a, hs a ha, he⟩

theorem not_mem_of_headIn {calls : List (List String)} {allowed : List String}
    {c : List String} (h : ∀ x ∈ calls, headIn allowed x)
    (hb : ∀ a ∈ allowed, (baseCmd c).head? ≠ some a) : c ∉ calls := by
  intro hm
  rcases h c hm with ⟨a, ha, he⟩
  exact hb a ha he

theorem kill_calls_head (env : Env) (p : Partition) :
    ∀ c ∈ (kill_processes_using env p).2, headIn ["lsof", "kill"] c := by
  intro c hc
  by_cases hw : env.which "lsof"
  · by_cases hp : (holderPids env (mapped_dev p)).isEmpty
    · simp only [kill_processes_using, hw, hp, Bool.not_true, Bool.false_eq_true,
        if_false, if_true, List.mem_singleton] at hc
      subst hc
      exact headIn_raw _ _ _ (by decide) (by decide)
    · by_cases hk : env.confirm "Kill these processes?"
      · simp only [kill_processes_using, hw, hp, hk, Bool.not_true, Bool.not_false,
          Bool.false_eq_true, if_false, if_true, List.mem_cons, List.mem_map] at hc
        rcases hc with rfl | ⟨pid, _, rfl⟩
        · exact headIn_raw _ _ _ (by decide) (by decide)
        · exact headIn_privVec _ _ _ _ (by decide) (by decide)
      · simp only [kill_processes_using, hw, hp, hk, Bool.not_true, Bool.not_false,
          Bool.false_eq_true, if_false, if_true, List.mem_singleton] at hc
        subst hc
        exact headIn_raw _ _ _ (by decide) (by decide)
  · simp [kill_processes_using, hw] at hc

theorem mount_calls_head (cfg : Config) (env : Env) (p : Partition) :
    ∀ c ∈ (do_mount cfg env p).2, headIn ["mount"] c := by
  intro c hc
  simp only [do_mount, block_if_safe] at hc
  split at hc
  · simp at hc
  · split at hc
    · simp at hc
    · split at hc <;>
      · simp only [List.mem_singleton] at hc
        subst hc
        exact headIn_privVec _ _ _ _ (by decide) (by decide)

theorem unmount_calls_head (cfg : Config) (env : Env) (p : Partition) :
    ∀ c ∈ (do_unmount cfg env p).2, headIn ["umount", "lsof", "kill"] c := by
  intro c hc
  simp only [do_unmount, block_if_safe] at hc
  split at hc
  · simp at hc
  split at hc
  · simp at hc
  split at hc
  · simp at hc
  split at hc
  · simp only [List.mem_singleton] at hc
    subst hc
    exact headIn_privVec _ _ _ _ (by decide) (by decide)
  split at hc
  · simp only [List.cons_append, List.mem_cons, List.mem_append,
      List.mem_singleton, List.not_mem_nil, or_false] at hc
    rcases hc with rfl | hc | rfl | rfl
    · exact headIn_privVec _ _ _ _ (by decide) (by decide)
    · exact headIn_mono (kill_calls_head env p _ hc) (by decide)
    · exact headIn_privVec _ _ _ _ (by decide) (by decide)
    · exact headIn_privVec _ _ _ _ (by decide) (by decide)
  · simp only [List.cons_append, List.mem_cons, List.mem_append,
      List.mem_singleton, List.not_mem_nil, or_false] at hc
    rcases hc with rfl | hc | rfl
    · exact headIn_privVec _ _ _ _ (by decide) (by decide)
    · exact headIn_mono (kill_calls_head env p _ hc) (by decide)
    · exact headIn_privVec _ _ _ _ (by decide) (by decide)

theorem remount_calls_head (cfg : Config) (env : Env) (p : Partition) :
    ∀ c ∈ (do_remount cfg env p).2, headIn ["umount", "mount"] c := by
  intro c hc
  simp only [do_remount, block_if_safe] at hc
  split at hc
  · simp at hc
  split at hc <;> split at hc <;>
  · simp only [List.mem_cons, List.mem_singleton, List.not_mem_nil, or_false] at hc
    rcases hc with rfl | rfl
    · exact headIn_privVec _ _ _ _ (by decide) (by decide)
    · exact headIn_privVec _ _ _ _ (by decide) (by decide)

theorem fsck_run_calls_head (env : Env) (dev : String) (pre : List (List String))
    (al : List String) (hal : "fsck" ∈ al)
    (hpre : ∀ c ∈ pre, headIn al c) :
    ∀ c ∈ (fsck_run env dev pre).2, headIn al c := by
  intro c hc
  simp only [fsck_run] at hc
  split at hc <;>
  · simp only [List.mem_append, List.mem_singleton] at hc
    rcases hc with hc | rfl
    · exact hpre c hc
    · exact headIn_privVec _ _ _ _ (by decide) hal

theorem fsck_calls_head (cfg : Config) (env : Env) (p : Partition) :
    ∀ c ∈ (do_fsck cfg env p).2, headIn ["umount", "lsof", "kill", "fsck"] c := by
  intro c hc
  simp only [do_fsck, block_if_safe] at hc
  split at hc
  · simp at hc
  split at hc
  · -- mounted target
    split at hc
    · simp at hc
    split at hc
    · -- clean unmount, then the check
      refine fsck_run_calls_head env _ _ _ (by decide) ?_ c hc
      intro x hx
      simp only [List.mem_singleton] at hx
      subst hx
      exact headIn_privVec _ _ _ _ (by decide) (by decide)
    split at hc
    · -- holder resolver failed to free the device: abort
      simp only [List.mem_cons] at hc
      rcases hc with rfl | hc
      · exact headIn_privVec _ _ _ _ (by decide) (by decide)
      · exact headIn_mono (kill_calls_head env p _ hc) (by decide)
    · -- freed: forced unmount, then the check
      refine fsck_run_calls_head env _ _ _ (by decide) ?_ c hc
      intro x hx
      simp only [List.cons_append, List.mem_cons, List.mem_append,
        List.mem_singleton, List.not_mem_nil, or_false] at hx
      rcases hx with rfl | hx | rfl
      · exact headIn_privVec _ _ _ _ (by decide) (by decide)
      · exact headIn_mono (kill_calls_head env p _ hx) (by decide)
      · exact headIn_privVec _ _ _ _ (by decide) (by decide)
  · exact fsck_run_calls_head env _ _ _ (by decide) (by simp) c hc

theorem eject_calls_head (cfg : Config) (env : Env) (p : Partition) :
    ∀ c ∈ (do_eject cfg env p).2, headIn ["umount", "lsof", "kill", "udisksctl"] c := by
  intro c hc
  simp only [do_eject, block_if_safe] at hc
  split at hc
  · simp at hc
  split at hc
  · simp at hc
  split at hc
  · simp at hc
  split at hc <;>
  · simp only [List.mem_append, List.mem_singleton] at hc
    rcases hc with hc | rfl
    · split at hc
      · exact headIn_mono (unmount_calls_head cfg env p _ hc) (by decide)
      · simp at hc
    · exact headIn_privVec _ _ _ _ (by decide) (by decide)

theorem swap_calls_head (cfg : Config) (env : Env) (p : Partition) :
    ∀ c ∈ (do_swap_toggle cfg env p).2, headIn ["swapon", "swapoff"] c := by
  intro c hc
  simp only [do_swap_toggle, block_if_safe] at hc
  split at hc
  · simp at hc
  split at hc
  · simp at hc
  split at hc <;> split at hc
  · simp only [List.mem_singleton] at hc
    subst hc
    exact headIn_raw _ _ _ (by decide) (by decide)
  · split at hc <;>
    · simp only [List.mem_cons, List.mem_singleton, List.not_mem_nil, or_false] at hc
      rcases hc with rfl | rfl
      · exact headIn_raw _ _ _ (by decide) (by decide)
      · exact headIn_privVec _ _ _ _ (by decide) (by decide)
  · simp only [List.mem_singleton] at hc
    subst hc
    exact headIn_raw _ _ _ (by decide) (by decide)
  · split at hc <;>
    · simp only [List.mem_cons, List.mem_singleton, List.not_mem_nil, or_false] at hc
      rcases hc with rfl | rfl
      · exact headIn_raw _ _ _ (by decide) (by decide)
      · exact headIn_privVec _ _ _ _ (by decide) (by decide)

theorem passphrase_calls_head (cfg : Config) (env : Env) (p : Partition) :
    ∀ c ∈ (luks_unlock_passphrase cfg env p).2, headIn ["cryptsetup"] c := by
  intro c hc
  simp only [luks_unlock_passphrase, block_if_safe] at hc
  split at hc
  · simp at hc
  split at hc
  · simp at hc
  split at hc <;>
  · simp only [List.mem_singleton] at hc
    subst hc
    exact headIn_privVec _ _ _ _ (by decide) (by decide)

theorem cryptOpenKey_calls_head (env : Env) (p : Partition) (k : String) :
    ∀ c ∈ (cryptOpenKey env p k).2, headIn ["cryptsetup"] c := by
  intro c hc
  simp only [cryptOpenKey] at hc
  split at hc <;>
  · simp only [List.mem_singleton] at hc
    subst hc
    exact headIn_privVec _ _ _ _ (by decide) (by decide)

theorem keyfile_calls_head (cfg : Config) (env : Env) (p : Partition) :
    ∀ c ∈ (luks_unlock_keyfile cfg env p).2, headIn ["cryptsetup"] c := by
  intro c hc
  simp only [luks_unlock_keyfile, block_if_safe] at hc
  split at hc
  · simp at hc
  split at hc
  · simp at hc
  split at hc
  · exact cryptOpenKey_calls_head env p _ c hc
  split at hc
  · simp at hc
  split at hc
  · simp at hc
  split at hc
  · simp at hc
  · exact cryptOpenKey_calls_head env p _ c hc

theorem lock_calls_head (cfg : Config) (env : Env) (p : Partition) :
    ∀ c ∈ (luks_lock cfg env p).2, headIn ["umount", "lsof", "kill", "cryptsetup"] c := by
  intro c hc
  simp only [luks_lock, block_if_safe] at hc
  split at hc
  · simp at hc
  split at hc
  · simp at hc
  split at hc
  · simp at hc
  split at hc <;>
  · simp only [List.mem_append, List.mem_singleton] at hc
    rcases hc with hc | rfl
    · split at hc
      · exact headIn_mono (unmount_calls_head cfg env p _ hc) (by decide)
      · simp at hc
    · exact headIn_privVec _ _ _ _ (by decide) (by decide)

/-- Every command any details-view action can issue invokes one of the
action programs; in particular none of them is the `lsblk` inventory
query. -/
theorem details_calls_head (cfg : Config) (env : Env) (key : String) (p : Partition) :
    ∀ c ∈ (show_details_step cfg env key p).2,
      headIn ["mount", "umount", "lsof", "kill", "fsck", "udisksctl",
        "swapon", "swapoff", "cryptsetup"] c := by
  intro c hc
  unfold show_details_step at hc
  by_cases h0 : (key == "enter" || key == "esc" || key == "q") = true
  · rw [if_pos h0] at hc; simp at hc
  rw [if_neg h0] at hc
  by_cases h1 : (key == "m") = true
  · rw [if_pos h1] at hc
    exact headIn_mono (mount_calls_head cfg env p c hc) (by decide)
  rw [if_neg h1] at hc
  by_cases h2 : (key == "u") = true
  · rw [if_pos h2] at hc
    exact headIn_mono (unmount_calls_head cfg env p c hc) (by decide)
  rw [if_neg h2] at hc
  by_cases h3 : (key == "E") = true
  · rw [if_pos h3] at hc
    exact headIn_mono (eject_calls_head cfg env p c hc) (by decide)
  rw [if_neg h3] at hc
  by_cases h4 : (key == "r") = true
  · rw [if_pos h4] at hc
    exact headIn_mono (remount_calls_head cfg env p c hc) (by decide)
  rw [if_neg h4] at hc
  by_cases h5 : (key == "f") = true
  · rw [if_pos h5] at hc
    exact headIn_mono (fsck_calls_head cfg env p c hc) (by decide)
  rw [if_neg h5] at hc
  by_cases h6 : (key == "k") = true
  · rw [if_pos h6] at hc
    exact headIn_mono (kill_calls_head env p c hc) (by decide)
  rw [if_neg h6] at hc
  by_cases h7 : (key == "o") = true
  · rw [if_pos h7] at hc
    exact headIn_mono (passphrase_calls_head cfg env p c hc) (by decide)
  rw [if_neg h7] at hc
  by_cases h8 : (key == "O") = true
  · rw [if_pos h8] at hc
    exact headIn_mono (keyfile_calls_head cfg env p c hc) (by decide)
  rw [if_neg h8] at hc
  by_cases h9 : (key == "l") = true
  · rw [if_pos h9] at hc
    exact headIn_mono (lock_calls_head cfg env p c hc) (by decide)
  rw [if_neg h9] at hc
  by_cases h10 : (key == "s") = true
  · rw [if_pos h10] at hc
    exact headIn_mono (swap_calls_head cfg env p c hc) (by decide)
  rw [if_neg h10] at hc
  simp at hc

/-! ## C2: mounting a locked LUKS device -/

/-- C2 counterexample: for the locked LUKS partition `pLocked`
(`is_luks`, not `luks_unlocked`), `do_mount` issues exactly one external
command — the `mount` of the raw device — with no keyfile auto-unlock
attempt (no `cryptsetup` invocation) and no abort. -/
theorem mount_locked_luks_no_autounlock_cex :
    pLocked.is_luks = true ∧ pLocked.luks_unlocked = false ∧
    do_mount cfgLive envBase pLocked =
      (.success, [["mount", "/dev/sdb2", "/mnt/vault"]]) := by
  refine ⟨rfl, rfl, ?_⟩
  decide

/-- C2 (amended): `do_mount` never attempts a keyfile auto-unlock — on an
unmounted locked LUKS partition it issues only the `mount` of the raw
device path; keyfile unlocking is the separate `luks_unlock_keyfile`
action, which aborts (cancelled, no external call) when no candidate
keyfile exists and no manual path is supplied. -/
theorem mount_locked_luks_direct (cfg : Config) (env : Env) (p : Partition)
    (hs : cfg.safe_mode = false) (hl : p.is_luks = true) (hu : p.luks_unlocked = false)
    (hm : pyMounted p = false)
    (hfind : (keyfileCandidates cfg p).find? env.is_file = none)
    (hinput : env.input "Keyfile path (or Enter to cancel): " = none) :
    (do_mount cfg env p).2 =
      [privVec env ["mount", p.dev, choose_mount_point cfg env p]] ∧
    luks_unlock_keyfile cfg env p = (.cancelled, []) := by
  constructor
  · have hdev : mapped_dev p = p.dev := by
      unfold mapped_dev
      cases p.luks_mapper <;> simp [hu]
    simp [do_mount, block_if_safe, hs, hm, hdev, apply_ite]
  · simp [luks_unlock_keyfile, block_if_safe, hs, hl, hu, hfind, hinput]

/-- Witness for the amended C2 at the concrete locked partition. -/
theorem mount_locked_luks_direct_witness :
    (do_mount cfgLive envBase pLocked).2 =
      [privVec envBase ["mount", pLocked.dev, choose_mount_point cfgLive envBase pLocked]] ∧
    luks_unlock_keyfile cfgLive envBase pLocked = (.cancelled, []) :=
  mount_locked_luks_direct cfgLive envBase pLocked rfl rfl rfl (by decide)
    (by decide) rfl

/-! ## C3: busy unmount with declined holder termination -/

/-- C3 counterexample: the plain unmount of mounted `/dev/sdc1` fails,
the holder probe returns pid 4242, the user declines termination — and
the code still issues the lazy unmount `umount -l`, reporting it as
attempted, contrary to the claim that no forced/lazy unmount happens. -/
theorem unmount_decline_still_lazy_cex :
    envBusyDecline.cmd_succeeds ["umount", "/dev/sdc1"] = false ∧
    holderPids envBusyDecline "/dev/sdc1" = ["4242"] ∧
    envBusyDecline.confirm "Kill these processes?" = false ∧
    do_unmount cfgLive envBusyDecline pMounted =
      (.lazyAttempted,
        [["umount", "/dev/sdc1"], ["lsof", "-t", "/dev/sdc1"],
         ["umount", "-l", "/dev/sdc1"]]) := by
  refine ⟨rfl, by decide, by decide, by decide⟩

/-- C3 (amended): when the plain unmount fails, the holder probe returns
pids and the user declines termination, no retry of the plain unmount
occurs, but a lazy unmount is still attempted as last resort and the
operation reports it as attempted (not as confirmed success): the calls
are exactly plain unmount, probe, lazy unmount. -/
theorem unmount_decline_lazy_fallback (cfg : Config) (env : Env) (p : Partition)
    (hs : cfg.safe_mode = false) (hm : pyMounted p = true)
    (hc : env.confirm ("Unmount " ++ p.dev ++ " from " ++ p.mount ++ "?") = true)
    (hfail : env.cmd_succeeds (privVec env ["umount", mapped_dev p]) = false)
    (hlsof : env.which "lsof" = true)
    (hpids : (holderPids env (mapped_dev p)).isEmpty = false)
    (hdecl : env.confirm "Kill these processes?" = false) :
    do_unmount cfg env p =
      (.lazyAttempted,
        [privVec env ["umount", mapped_dev p], ["lsof", "-t", mapped_dev p],
         privVec env ["umount", "-l", mapped_dev p]]) := by
  have hk : kill_processes_using env p = (false, [["lsof", "-t", mapped_dev p]]) := by
    simp [kill_processes_using, hlsof, hpids, hdecl]
  simp [do_unmount, block_if_safe, hs, hm, hc, privOk, hfail, hk]

/-- Witness for the amended C3 at the concrete decline scenario. -/
theorem unmount_decline_lazy_fallback_witness :
    do_unmount cfgLive envBusyDecline pMounted =
      (.lazyAttempted,
        [privVec envBusyDecline ["umount", mapped_dev pMounted],
         ["lsof", "-t", mapped_dev pMounted],
         privVec envBusyDecline ["umount", "-l", mapped_dev pMounted]]) :=
  unmount_decline_lazy_fallback cfgLive envBusyDecline pMounted rfl (by decide)
    (by decide) (by decide) (by decide) (by decide) (by decide)

/-! ## C4: inventory refresh discipline -/

/-- C4 counterexample: after the mount mutation on `pPlain` in the
details view, no fresh snapshot is fetched (the `lsblk` query is not
among the issued calls) and the next iteration keeps operating on the
pre-mutation `pPlain`, whose cached state still says unmounted. -/
theorem mutation_no_refresh_cex :
    show_details_step cfgLive envBase "m" pPlain =
      (some pPlain, [["mount", "/dev/sda1", "/mnt/sda1"]]) ∧
    lsblkCmd ∉ [["mount", "/dev/sda1", "/mnt/sda1"]] ∧
    pPlain.mount = "-" := by
  decide

/-- C4 (amended): mutating operations do not rebuild the inventory — no
details-view action ever issues the `lsblk` inventory query, and the next
details iteration always operates on the same pre-mutation partition
value; the inventory is refetched only by the explicit reload key and on
entering the details view in the main loop. -/
theorem inventory_refresh_only_on_reload (cfg : Config) (env : Env) (key : String)
    (p : Partition) (st : MainState) :
    ((show_details_step cfg env key p).1 = none ∨
      (show_details_step cfg env key p).1 = some p) ∧
    lsblkCmd ∉ (show_details_step cfg env key p).2 ∧
    (main_step cfg env "r" st).2 = [lsblkCmd] ∧
    (main_step cfg env "enter" st).2 = [lsblkCmd] ∧
    (main_step cfg env "r" st).1 =
      .cont ⟨(fetch_devices env).1,
        if st.selected ≥ (fetch_devices env).1.length then 0 else st.selected⟩ := by
  refine ⟨?_, not_mem_of_headIn (details_calls_head cfg env key p) (by decide),
    rfl, rfl, rfl⟩
  unfold show_details_step
  by_cases h0 : (key == "enter" || key == "esc" || key == "q") = true
  · rw [if_pos h0]; exact Or.inl rfl
  rw [if_neg h0]
  by_cases h1 : (key == "m") = true
  · rw [if_pos h1]; exact Or.inr rfl
  rw [if_neg h1]
  by_cases h2 : (key == "u") = true
  · rw [if_pos h2]; exact Or.inr rfl
  rw [if_neg h2]
  by_cases h3 : (key == "E") = true
  · rw [if_pos h3]; exact Or.inr rfl
  rw [if_neg h3]
  by_cases h4 : (key == "r") = true
  · rw [if_pos h4]; exact Or.inr rfl
  rw [if_neg h4]
  by_cases h5 : (key == "f") = true
  · rw [if_pos h5]; exact Or.inr rfl
  rw [if_neg h5]
  by_cases h6 : (key == "k") = true
  · rw [if_pos h6]; exact Or.inr rfl
  rw [if_neg h6]
  by_cases h7 : (key == "o") = true
  · rw [if_pos h7]; exact Or.inr rfl
  rw [if_neg h7]
  by_cases h8 : (key == "O") = true
  · rw [if_pos h8]; exact Or.inr rfl
  rw [if_neg h8]
  by_cases h9 : (key == "l") = true
  · rw [if_pos h9]; exact Or.inr rfl
  rw [if_neg h9]
  by_cases h10 : (key == "s") = true
  · rw [if_pos h10]; exact Or.inr rfl
  rw [if_neg h10]
  exact Or.inr rfl

/-! ## C5: keyfile resolution order -/

/-- C5: candidate keyfiles are resolved UUID-named first, then
label-named, then device-name-named, under the one trusted key directory,
and the first existing file is the one passed to `cryptsetup open
--key-file`; in particular the UUID-named file wins when (at least) it
and the label-named file exist; with no candidate, a manual path is
prompted for, a non-existent manual path is rejected without any external
call, and cancelling the prompt aborts. -/
theorem keyfile_resolution_order (cfg : Config) (p : Partition)
    (envU envL envN envM envC : Env)
    (hs : cfg.safe_mode = false)
    (hl : p.is_luks = true) (hu : p.luks_unlocked = false)
    (huu : pyTruthy p.uuid = true) (hla : pyTruthy p.label = true)
    (h1 : envU.is_file (keyPath cfg (optStr p.uuid)) = true)
    (h2a : envL.is_file (keyPath cfg (optStr p.uuid)) = false)
    (h2b : envL.is_file (keyPath cfg (optStr p.label)) = true)
    (h3a : envN.is_file (keyPath cfg (optStr p.uuid)) = false)
    (h3b : envN.is_file (keyPath cfg (optStr p.label)) = false)
    (h3c : envN.is_file (keyPath cfg p.name) = true)
    (h4a : ∀ k, envM.is_file k = false)
    (h4b : envM.input "Keyfile path (or Enter to cancel): " = some "/nope.key")
    (h5a : ∀ k, envC.is_file k = false)
    (h5b : envC.input "Keyfile path (or Enter to cancel): " = none) :
    luks_unlock_keyfile cfg envU p = cryptOpenKey envU p (keyPath cfg (optStr p.uuid)) ∧
    luks_unlock_keyfile cfg envL p = cryptOpenKey envL p (keyPath cfg (optStr p.label)) ∧
    luks_unlock_keyfile cfg envN p = cryptOpenKey envN p (keyPath cfg p.name) ∧
    luks_unlock_keyfile cfg envM p = (.keyfileNotFound, []) ∧
    luks_unlock_keyfile cfg envC p = (.cancelled, []) := by
  refine ⟨?_, ?_, ?_, ?_, ?_⟩ <;>
    simp [luks_unlock_keyfile, block_if_safe, hs, hl, hu, keyfileCandidates,
      huu, hla, List.find?, h1, h2a, h2b, h3a, h3b, h3c, h4a, h4b, h5a, h5b]

/-- Witness for C5 at the concrete locked partition, one environment per
resolution scenario. -/
theorem keyfile_resolution_order_witness :
    luks_unlock_keyfile cfgLive envTwoKeys pLocked =
      cryptOpenKey envTwoKeys pLocked (keyPath cfgLive (optStr pLocked.uuid)) ∧
    luks_unlock_keyfile cfgLive envLabelKey pLocked =
      cryptOpenKey envLabelKey pLocked (keyPath cfgLive (optStr pLocked.label)) ∧
    luks_unlock_keyfile cfgLive envNameKey pLocked =
      cryptOpenKey envNameKey pLocked (keyPath cfgLive pLocked.name) ∧
    luks_unlock_keyfile cfgLive envNoKeys pLocked = (.keyfileNotFound, []) ∧
    luks_unlock_keyfile cfgLive envBase pLocked = (.cancelled, []) :=
  keyfile_resolution_order cfgLive pLocked envTwoKeys envLabelKey envNameKey
    envNoKeys envBase rfl rfl rfl (by decide) (by decide) (by decide) (by decide)
    (by decide) (by decide) (by decide) (by decide) (fun _ => rfl) (by decide)
    (fun _ => rfl) rfl

/-! ## C6: swap toggle decides from the live listing -/

/-- C6: for a swap partition the toggle queries the live
`swapon --show=NAME` listing and issues activation exactly when the
device path is not contained in it and deactivation when it is; the
decision and the whole result are independent of the cached snapshot's
mountpoint state. -/
theorem swap_toggle_live_query (cfg : Config) (envOn envOff : Env) (p : Partition)
    (mps : List (Option String))
    (hs : cfg.safe_mode = false) (hw : p.is_swap = true)
    (hOn : swap_active envOn p.dev = false)
    (hcOn : envOn.confirm ("Enable swap on " ++ p.dev ++ "?") = true)
    (hOff : swap_active envOff p.dev = true)
    (hcOff : envOff.confirm ("Disable swap on " ++ p.dev ++ "?") = true) :
    do_swap_toggle cfg envOn p =
      (if privOk envOn ["swapon", p.dev] then Outcome.success else Outcome.failure,
        [["swapon", "--show=NAME"], privVec envOn ["swapon", p.dev]]) ∧
    do_swap_toggle cfg envOff p =
      (if privOk envOff ["swapoff", p.dev] then Outcome.success else Outcome.failure,
        [["swapon", "--show=NAME"], privVec envOff ["swapoff", p.dev]]) ∧
    do_swap_toggle cfg envOn { p with mountpoints := mps } = do_swap_toggle cfg envOn p ∧
    do_swap_toggle cfg envOff { p with mountpoints := mps } = do_swap_toggle cfg envOff p := by
  refine ⟨?_, ?_, rfl, rfl⟩ <;>
  · simp [do_swap_toggle, block_if_safe, hs, hw, hOn, hcOn, hOff, hcOff]
    split <;> rfl

/-- Witness for C6: live listing containing `/dev/sda2` versus not,
with the cached mountpoints perturbed. -/
theorem swap_toggle_live_query_witness :
    do_swap_toggle cfgLive envBase pSwap =
      (if privOk envBase ["swapon", pSwap.dev] then Outcome.success else Outcome.failure,
        [["swapon", "--show=NAME"], privVec envBase ["swapon", pSwap.dev]]) ∧
    do_swap_toggle cfgLive envSwapActive pSwap =
      (if privOk envSwapActive ["swapoff", pSwap.dev] then Outcome.success else Outcome.failure,
        [["swapon", "--show=NAME"], privVec envSwapActive ["swapoff", pSwap.dev]]) ∧
    do_swap_toggle cfgLive envBase { pSwap with mountpoints := [some "[SWAP]"] } =
      do_swap_toggle cfgLive envBase pSwap ∧
    do_swap_toggle cfgLive envSwapActive { pSwap with mountpoints := [some "[SWAP]"] } =
      do_swap_toggle cfgLive envSwapActive pSwap :=
  swap_toggle_live_query cfgLive envBase envSwapActive pSwap [some "[SWAP]"] rfl rfl
    (by decide) (by decide) (by decide) (by decide)

/-! ## C7: fsck behaviour across the two revisions -/

/-- C7: the final revision's fsck requires a confirmed unmount of a
mounted target and never issues any `mount` command afterwards, whereas
the earlier revision's mounted-fsck handler remounts at the previous
mountpoint; on the same scenario the two call sequences differ. -/
theorem fsck_no_remount_vs_old (cfg : Config) (envA envAny envO : Env)
    (p : Partition) (d : OldDevice)
    (hs : cfg.safe_mode = false) (hm : pyMounted p = true)
    (hcfA : envA.confirm
      (mapped_dev p ++ " is mounted at " ++ p.mount ++ ". Unmount to run fsck?") = false)
    (hroot : envO.euid_is_root = true)
    (hcfO : envO.confirm
      (mapped_dev p ++ " is mounted at " ++ p.mount ++ ". Unmount to run fsck?") = true)
    (hud : envO.cmd_succeeds ["umount", mapped_dev p] = true)
    (hfd : envO.cmd_succeeds ["fsck", "-y", mapped_dev p] = true)
    (hdm : old_dev_path d = mapped_dev p) :
    do_fsck cfg envA p = (.cancelled, []) ∧
    (do_fsck cfg envAny p).2.all
      (fun c => !((baseCmd c).head? == some "mount")) = true ∧
    (do_fsck cfg envO p).2 = [["umount", mapped_dev p], ["fsck", "-y", mapped_dev p]] ∧
    (old_fsck_mounted envO d).2 =
      [["umount", mapped_dev p], ["fsck", "-y", mapped_dev p],
       ["mount", mapped_dev p, d.mountpoint]] ∧
    ["mount", mapped_dev p, d.mountpoint] ∈ (old_fsck_mounted envO d).2 ∧
    (do_fsck cfg envO p).2 ≠ (old_fsck_mounted envO d).2 := by
  have hpv : ∀ v, privVec envO v = v := fun v => by simp [privVec, hroot]
  have h3 : (do_fsck cfg envO p).2 =
      [["umount", mapped_dev p], ["fsck", "-y", mapped_dev p]] := by
    simp [do_fsck, block_if_safe, hs, hm, hcfO, privOk, hpv, hud, fsck_run, hfd]
  have h4 : (old_fsck_mounted envO d).2 =
      [["umount", mapped_dev p], ["fsck", "-y", mapped_dev p],
       ["mount", mapped_dev p, d.mountpoint]] := by
    simp [old_fsck_mounted, hdm, hud, hfd, apply_ite]
  refine ⟨?_, ?_, h3, h4, ?_, ?_⟩
  · simp [do_fsck, block_if_safe, hs, hm, hcfA]
  · rw [List.all_eq_true]
    intro c hc
    rcases fsck_calls_head cfg envAny p c hc with ⟨a, ha, he⟩
    rw [he]
    simp only [List.mem_cons, List.mem_singleton, List.not_mem_nil, or_false] at ha
    rcases ha with rfl | rfl | rfl | rfl <;> decide
  · rw [h4]
    simp
  · intro heq
    rw [h3, h4] at heq
    have hlen := congrArg List.length heq
    simp at hlen

/-- Witness for C7: mounted `/dev/sdc1`, declining environment versus an
all-yes root environment, against the earlier revision's view of the same
device. -/
theorem fsck_no_remount_vs_old_witness :
    do_fsck cfgLive envNoConfirm pMounted = (.cancelled, []) ∧
    (do_fsck cfgLive envBase pMounted).2.all
      (fun c => !((baseCmd c).head? == some "mount")) = true ∧
    (do_fsck cfgLive envBase pMounted).2 =
      [["umount", mapped_dev pMounted], ["fsck", "-y", mapped_dev pMounted]] ∧
    (old_fsck_mounted envBase dOld).2 =
      [["umount", mapped_dev pMounted], ["fsck", "-y", mapped_dev pMounted],
       ["mount", mapped_dev pMounted, dOld.mountpoint]] ∧
    ["mount", mapped_dev pMounted, dOld.mountpoint] ∈ (old_fsck_mounted envBase dOld).2 ∧
    (do_fsck cfgLive envBase pMounted).2 ≠ (old_fsck_mounted envBase dOld).2 :=
  fsck_no_remount_vs_old cfgLive envNoConfirm envBase envBase pMounted dOld rfl
    (by decide) rfl rfl (by decide) rfl rfl (by decide)

/-! ## C8: parent-device derivation -/

theorem takeWhile_all {p : Char → Bool} :
    ∀ l : List Char, (∀ x ∈ l, p x = true) → l.takeWhile p = l := by
  intro l
  induction l with
  | nil => intro _; rfl
  | cons a t ih =>
    intro h
    have ha := h a (List.mem_cons_self a t)
    simp [List.takeWhile_cons, ha,
      ih (fun x hx => h x (List.mem_cons_of_mem a hx))]

theorem dropWhile_all {p : Char → Bool} :
    ∀ l : List Char, (∀ x ∈ l, p x = true) → l.dropWhile p = [] := by
  intro l
  induction l with
  | nil => intro _; rfl
  | cons a t ih =>
    intro h
    have ha := h a (List.mem_cons_self a t)
    simp [List.dropWhile_cons, ha,
      ih (fun x hx => h x (List.mem_cons_of_mem a hx))]

theorem takeWhile_all_append {p : Char → Bool} (y : Char) (r : List Char)
    (hy : p y = false) :
    ∀ l : List Char, (∀ x ∈ l, p x = true) → (l ++ y :: r).takeWhile p = l := by
  intro l
  induction l with
  | nil => intro _; simp [List.takeWhile_cons, hy]
  | cons a t ih =>
    intro h
    have ha := h a (List.mem_cons_self a t)
    simp [List.takeWhile_cons, ha,
      ih (fun x hx => h x (List.mem_cons_of_mem a hx))]

theorem dropWhile_all_append {p : Char → Bool} (y : Char) (r : List Char)
    (hy : p y = false) :
    ∀ l : List Char, (∀ x ∈ l, p x = true) → (l ++ y :: r).dropWhile p = y :: r := by
  intro l
  induction l with
  | nil => intro _; simp [List.dropWhile_cons, hy]
  | cons a t ih =>
    intro h
    have ha := h a (List.mem_cons_self a t)
    simp [List.dropWhile_cons, ha,
      ih (fun x hx => h x (List.mem_cons_of_mem a hx))]

theorem digitsThen_append (a : List Char) (y : Char) (r : List Char)
    (ha : a ≠ []) (hd : ∀ x ∈ a, x.isDigit = true) (hy : y.isDigit = false) :
    digitsThen (a ++ y :: r) = some (a, y :: r) := by
  unfold digitsThen
  rw [takeWhile_all_append y r hy a hd, dropWhile_all_append y r hy a hd]
  simp [List.isEmpty_iff, ha]

theorem digitsThen_all (a : List Char) (ha : a ≠ [])
    (hd : ∀ x ∈ a, x.isDigit = true) :
    digitsThen a = some (a, []) := by
  unfold digitsThen
  rw [takeWhile_all a hd, dropWhile_all a hd]
  simp [List.isEmpty_iff, ha]

theorem matchNvmePat_append (a b c : List Char)
    (ha : a ≠ []) (hb : b ≠ []) (hc : c ≠ [])
    (hda : ∀ x ∈ a, x.isDigit = true) (hdb : ∀ x ∈ b, x.isDigit = true)
    (hdc : ∀ x ∈ c, x.isDigit = true) :
    matchNvmePat ('n' :: 'v' :: 'm' :: 'e' :: (a ++ 'n' :: (b ++ 'p' :: c))) = true := by
  have e1 : digitsThen (a ++ 'n' :: (b ++ 'p' :: c)) = some (a, 'n' :: (b ++ 'p' :: c)) :=
    digitsThen_append a 'n' (b ++ 'p' :: c) ha hda (by decide)
  have e2 : digitsThen (b ++ 'p' :: c) = some (b, 'p' :: c) :=
    digitsThen_append b 'p' c hb hdb (by decide)
  have e3 : digitsThen c = some (c, []) := digitsThen_all c hc hdc
  simp [matchNvmePat, e1, e2, e3]

theorem matchMmcPat_append (d e : List Char)
    (hd : d ≠ []) (he : e ≠ [])
    (hdd : ∀ x ∈ d, x.isDigit = true) (hde : ∀ x ∈ e, x.isDigit = true) :
    matchMmcPat ('m' :: 'm' :: 'c' :: 'b' :: 'l' :: 'k' :: (d ++ 'p' :: e)) = true := by
  have e1 : digitsThen (d ++ 'p' :: e) = some (d, 'p' :: e) :=
    digitsThen_append d 'p' e hd hdd (by decide)
  have e2 : digitsThen e = some (e, []) := digitsThen_all e he hde
  simp [matchMmcPat, e1, e2]

theorem stripPSuffix_append (A c : List Char) (hc : c ≠ [])
    (hdc : ∀ x ∈ c, x.isDigit = true) :
    stripPSuffix (A ++ 'p' :: c) = A := by
  have hrd : ∀ x ∈ c.reverse, x.isDigit = true :=
    fun x hx => hdc x (List.mem_reverse.mp hx)
  have hrev : (A ++ 'p' :: c).reverse = c.reverse ++ 'p' :: A.reverse := by
    simp
  unfold stripPSuffix
  rw [hrev, dropWhile_all_append 'p' A.reverse (by decide) c.reverse hrd,
    takeWhile_all_append 'p' A.reverse (by decide) c.reverse hrd]
  simp [List.isEmpty_iff, hc]

theorem stripTrailingDigits_append (B ds : List Char) (y : Char)
    (hy : y.isDigit = false) (hds : ∀ x ∈ ds, x.isDigit = true) :
    stripTrailingDigits (B ++ y :: ds) = B ++ [y] := by
  have hrev : (B ++ y :: ds).reverse = ds.reverse ++ y :: B.reverse := by
    simp
  unfold stripTrailingDigits
  rw [hrev, dropWhile_all_append y B.reverse hy ds.reverse
    (fun x hx => hds x (List.mem_reverse.mp hx))]
  simp

theorem parent_disk_mk (l : List Char) :
    parent_disk (String.mk l) =
      if matchNvmePat l then (stripPSuffix l).asString
      else if matchMmcPat l then (stripPSuffix l).asString
      else (stripTrailingDigits l).asString := rfl

/-- C8: parent-device derivation strips the partition suffix — an
NVMe-style name `nvme<digits>n<digits>p<digits>` maps to the base
`nvme<digits>n<digits>`, an MMC-style name `mmcblk<digits>p<digits>` maps
to `mmcblk<digits>`, and a plain trailing-digit name (one that matches
neither special pattern, such as `sda3`) strips its trailing digits. -/
theorem parent_disk_derivation
    (a b c d e bs ds : List Char) (y : Char)
    (ha : a ≠ []) (hb : b ≠ []) (hc : c ≠ [])
    (hda : ∀ x ∈ a, x.isDigit = true) (hdb : ∀ x ∈ b, x.isDigit = true)
    (hdc : ∀ x ∈ c, x.isDigit = true)
    (hd : d ≠ []) (he : e ≠ [])
    (hdd : ∀ x ∈ d, x.isDigit = true) (hde : ∀ x ∈ e, x.isDigit = true)
    (hds : ds ≠ []) (hdds : ∀ x ∈ ds, x.isDigit = true) (hy : y.isDigit = false)
    (hn1 : matchNvmePat (bs ++ y :: ds) = false)
    (hn2 : matchMmcPat (bs ++ y :: ds) = false) :
    parent_disk (String.mk ('n' :: 'v' :: 'm' :: 'e' :: (a ++ 'n' :: (b ++ 'p' :: c))))
      = String.mk ('n' :: 'v' :: 'm' :: 'e' :: (a ++ 'n' :: b)) ∧
    parent_disk (String.mk ('m' :: 'm' :: 'c' :: 'b' :: 'l' :: 'k' :: (d ++ 'p' :: e)))
      = String.mk ('m' :: 'm' :: 'c' :: 'b' :: 'l' :: 'k' :: d) ∧
    parent_disk (String.mk (bs ++ y :: ds)) = String.mk (bs ++ [y]) := by
  refine ⟨?_, ?_, ?_⟩
  · rw [parent_disk_mk, if_pos (matchNvmePat_append a b c ha hb hc hda hdb hdc)]
    have heq : ('n' :: 'v' :: 'm' :: 'e' :: (a ++ 'n' :: (b ++ 'p' :: c)) : List Char) =
        ('n' :: 'v' :: 'm' :: 'e' :: (a ++ 'n' :: b)) ++ 'p' :: c := by simp
    rw [heq, stripPSuffix_append _ c hc hdc]
    rfl
  · have hnm : matchNvmePat
        ('m' :: 'm' :: 'c' :: 'b' :: 'l' :: 'k' :: (d ++ 'p' :: e)) = false := rfl
    rw [parent_disk_mk, if_neg (by simp [hnm]),
      if_pos (matchMmcPat_append d e hd he hdd hde)]
    have heq : ('m' :: 'm' :: 'c' :: 'b' :: 'l' :: 'k' :: (d ++ 'p' :: e) : List Char) =
        ('m' :: 'm' :: 'c' :: 'b' :: 'l' :: 'k' :: d) ++ 'p' :: e := by simp
    rw [heq, stripPSuffix_append _ e he hde]
    rfl
  · rw [parent_disk_mk, if_neg (by simp [hn1]), if_neg (by simp [hn2]),
      stripTrailingDigits_append bs ds y hy hdds]
    rfl

/-- Witness for C8 at `nvme0n1p3`, `mmcblk0p1` and `sda3`. -/
theorem parent_disk_derivation_witness :
    parent_disk (String.mk ('n' :: 'v' :: 'm' :: 'e' :: (['0'] ++ 'n' :: (['1'] ++ 'p' :: ['3']))))
      = String.mk ('n' :: 'v' :: 'm' :: 'e' :: (['0'] ++ 'n' :: ['1'])) ∧
    parent_disk (String.mk ('m' :: 'm' :: 'c' :: 'b' :: 'l' :: 'k' :: (['0'] ++ 'p' :: ['1'])))
      = String.mk ('m' :: 'm' :: 'c' :: 'b' :: 'l' :: 'k' :: ['0']) ∧
    parent_disk (String.mk (['s', 'd'] ++ 'a' :: ['3'])) = String.mk (['s', 'd'] ++ ['a']) :=
  parent_disk_derivation ['0'] ['1'] ['3'] ['0'] ['1'] ['s', 'd'] ['3'] 'a'
    (by decide) (by decide) (by decide) (by decide) (by decide) (by decide)
    (by decide) (by decide) (by decide) (by decide) (by decide) (by decide)
    (by decide) (by decide) (by decide)

/-! ## C9: the `crypt`-node invariant of the inventory builder -/

theorem classifyNode_crypt (name size typ fs : String) (label uuid : Option String)
    (mps : List (Option String))
    (h : (classifyNode name size typ fs label uuid mps).type = some "crypt") :
    cryptInvariant (classifyNode name size typ fs label uuid mps) := by
  by_cases ht : (typ == "crypt") = true
  · simp [classifyNode, ht, cryptInvariant]
  · exfalso
    unfold classifyNode at h
    rw [if_neg ht] at h
    have : typ = "crypt" := by
      split at h <;> simpa using h
    simp [this] at ht

mutual

theorem walkNode_crypt_inv (n : LsblkNode) :
    ∀ p ∈ walkNode n, p.type = some "crypt" → cryptInvariant p := by
  match n with
  | .mk name size typ fs label uuid mps children =>
    intro p hp ht
    rw [walkNode] at hp
    rcases List.mem_append.mp hp with h1 | h2
    · split at h1
      · simp only [List.mem_singleton] at h1
        subst h1
        exact classifyNode_crypt _ _ _ _ _ _ _ ht
      · simp at h1
    · exact walkNodes_crypt_inv children p h2 ht

theorem walkNodes_crypt_inv (l : List LsblkNode) :
    ∀ p ∈ walkNodes l, p.type = some "crypt" → cryptInvariant p := by
  match l with
  | [] => intro p hp _; simp [walkNodes] at hp
  | n :: rest =>
    intro p hp ht
    rw [walkNodes] at hp
    rcases List.mem_append.mp hp with h1 | h2
    · exact walkNode_crypt_inv n p h1 ht
    · exact walkNodes_crypt_inv rest p h2 ht

end

theorem link_one_type (parts : List Partition) (p : Partition) :
    (link_one parts p).type = p.type := by
  unfold link_one
  split
  · split <;> rfl
  · rfl

theorem link_one_of_unlocked (parts : List Partition) (p : Partition)
    (h : p.luks_unlocked = true) : link_one parts p = p := by
  unfold link_one
  simp [h]

theorem fetchFromTree_crypt_inv (raw : List LsblkNode) :
    ∀ q ∈ fetchFromTree raw, q.type = some "crypt" → cryptInvariant q := by
  intro q hq ht
  unfold fetchFromTree link_pass at hq
  rcases List.mem_map.mp hq with ⟨p, hp, rfl⟩
  have htp : p.type = some "crypt" := by
    rw [← link_one_type (walkNodes raw) p]
    exact ht
  have hinv := walkNodes_crypt_inv raw p hp htp
  rw [link_one_of_unlocked _ _ hinv.2.1]
  exact hinv

/-- C9: in every inventory the Device Inventory Builder produces, every
node of type `crypt` satisfies `is_luks`, `luks_unlocked`, and
`luks_mapper` equal to its own name — both directly after the parse walk
and still after the heuristic linking pass. -/
theorem crypt_nodes_invariant (raw : List LsblkNode) (p q : Partition)
    (hw : p ∈ walkNodes raw) (hwt : p.type = some "crypt")
    (hf : q ∈ fetchFromTree raw) (hft : q.type = some "crypt") :
    cryptInvariant p ∧ cryptInvariant q :=
  ⟨walkNodes_crypt_inv raw p hw hwt, fetchFromTree_crypt_inv raw q hf hft⟩

/-- Witness for C9 on the concrete snapshot `rawTree`, whose `cr` node
has type `crypt`. -/
theorem crypt_nodes_invariant_witness : cryptInvariant pCrypt ∧ cryptInvariant pCrypt :=
  crypt_nodes_invariant rawTree pCrypt pCrypt
    (by simp [rawTree, walkNodes, walkNode, includeType, classifyNode, pCrypt])
    rfl
    (by simp [fetchFromTree, link_pass, link_one, linkCandidate, rawTree,
      walkNodes, walkNode, includeType, classifyNode, pCrypt, pyTruthy,
      hasSubstr, subList, optStr])
    rfl

/-! ## C10: the holder-kill action is not behind the Safety Gate -/

/-- C10: even with safe mode engaged, the `k` key in the details view
probes the holders of the device path and, on confirmation, sends a
termination signal to every reported pid through the privilege mediator —
a nonempty sequence of external calls that the gate does not block — and
the view then continues on the same partition. -/
theorem kill_pids_not_gated (cfg : Config) (env : Env) (p : Partition)
    (hs : cfg.safe_mode = true)
    (hl : env.which "lsof" = true)
    (hpe : (holderPids env (mapped_dev p)).isEmpty = false)
    (hk : env.confirm "Kill these processes?" = true) :
    (show_details_step cfg env "k" p).2 =
      ["lsof", "-t", mapped_dev p] ::
        (holderPids env (mapped_dev p)).map
          (fun pid => privVec env ["kill", "-TERM", pid]) ∧
    (show_details_step cfg env "k" p).2 ≠ [] ∧
    (show_details_step cfg env "k" p).1 = some p := by
  have hstep : show_details_step cfg env "k" p =
      (some p, (kill_processes_using env p).2) := rfl
  have hkill : (kill_processes_using env p).2 =
      ["lsof", "-t", mapped_dev p] ::
        (holderPids env (mapped_dev p)).map
          (fun pid => privVec env ["kill", "-TERM", pid]) := by
    simp [kill_processes_using, hl, hpe, hk]
  rw [hstep]
  exact ⟨hkill, by simp [hkill], rfl⟩

/-- Witness for C10: safe mode on, holder pid 777 reported for
`/dev/sdc1`, kill confirmed, non-root invocation. -/
theorem kill_pids_not_gated_witness :
    (show_details_step cfgSafe envHolders "k" pMounted).2 =
      ["lsof", "-t", mapped_dev pMounted] ::
        (holderPids envHolders (mapped_dev pMounted)).map
          (fun pid => privVec envHolders ["kill", "-TERM", pid]) ∧
    (show_details_step cfgSafe envHolders "k" pMounted).2 ≠ [] ∧
    (show_details_step cfgSafe envHolders "k" pMounted).1 = some pMounted :=
  kill_pids_not_gated cfgSafe envHolders pMounted rfl rfl (by decide) rfl

end MountTool
